import Mathlib

/-!
Verification development for the TinyICOC in-circuit oscillator calibrator.

The firmware (a single C source file) identifies a target AVR over ICSP,
flashes an instrumentation image, and searches for the OSCCAL byte whose
emitted frequency is closest to the target frequency.  The definitions
below are a shallow embedding of that source: pure C helpers become Lean
functions, the `while(1)` calibration loop of `main` becomes a fuel-indexed
recursion (the fuel counts loop iterations, i.e. frequency measurements),
and the instruction traffic on the ICSP link becomes an explicit event
trace.  Machine integers are modelled as `Nat` with explicit wrap where the
C code wraps (`uint8_t` calibration byte, `uint16_t` frequency register).
-/

/-- Embeds C `diff`: `if(a > b) return a - b; return b - a;` (absolute
difference of two unsigned 16-bit values). -/
def diff (a b : Nat) : Nat :=
  if b < a then a - b else b - a

/-- Embeds the trial-adjustment step of `main`:
`if(frequency > TGT.FREQ) calib--; else calib++;` where `calib` is a
`uint8_t`, so decrement and increment wrap modulo 256. -/
def nextCalib (frequency tfreq calib : Nat) : Nat :=
  if tfreq < frequency then (calib + 255) % 256 else (calib + 1) % 256

/-- Result of one run of the measuring/adjusting loop of `main`:
`lastcalib` is the value the final commit writes to EEPROM address zero,
`visited` lists every trial byte that was measured (in order), and
`bests` lists every trial that was recorded as the new best
(`lastcalib = calib; difference = diff;`), in order. -/
structure CalibRun where
  lastcalib : Nat
  visited : List Nat
  bests : List Nat
deriving DecidableEq

/-- Embeds the measuring/adjusting `while(1)` loop of `main`.  `f calib`
models the frequency `FRQ_measure()` returns while the target runs with
trial byte `calib` in its EEPROM; `tfreq` is `TGT.FREQ`; `difference` is
the loop variable of the same name (seeded with 65535 by the caller);
`fuel` bounds the number of iterations (each iteration performs exactly
one measurement), `none` meaning the fuel ran out before the loop broke. -/
def calibLoop (f : Nat → Nat) (tfreq : Nat) :
    Nat → Nat → Nat → Nat → List Nat → List Nat → Option CalibRun
  | 0, _, _, _, _, _ => none
  | Nat.succ n, calib, lastcalib, difference, visited, bests =>
    if difference ≤ diff (f calib) tfreq then
      some ⟨lastcalib, visited ++ [calib], bests⟩
    else if diff (f calib) tfreq = 0 then
      some ⟨calib, visited ++ [calib], bests ++ [calib]⟩
    else
      calibLoop f tfreq n (nextCalib (f calib) tfreq calib) calib
        (diff (f calib) tfreq) (visited ++ [calib]) (bests ++ [calib])

/-- Embeds the calibration process of `main` from its entry state:
`lastcalib = calib; difference = 65535;` followed by the loop.  Fuel 65536
is one more than the largest possible `difference`, which the termination
theorem shows is always enough. -/
def calibRun (f : Nat → Nat) (tfreq c0 : Nat) : Option CalibRun :=
  calibLoop f tfreq 65536 c0 c0 65535 [] []

/-- ICSP link events of one session of `main`, in issue order.  `enter` is
one call of `ICSP_enterProgMode` (the enable handshake), `readSig` the
paired signature reads of `ICSP_readSignature`, `flashWrite` the whole
`ICSP_writeFlash` sequence (modelled instruction by instruction separately
below), and `exit` one call of `ICSP_exitProgMode`. -/
inductive Ev where
  | enter : Ev
  | readSig : Ev
  | readCalib : Ev
  | erase : Ev
  | writeFuses : Ev
  | flashWrite : Ev
  | eepromWrite : Nat → Nat → Ev
  | exit : Ev
  | measure : Ev
deriving DecidableEq

/-- Event trace of the measuring/adjusting loop of `main`: each iteration
measures, and — when the trial was an improvement and not exact — writes
the next trial byte to EEPROM address zero inside a fresh programming
session before looping. -/
def calibLoopEv (f : Nat → Nat) (tfreq : Nat) : Nat → Nat → Nat → List Ev
  | 0, _, _ => []
  | Nat.succ n, calib, difference =>
    if difference ≤ diff (f calib) tfreq then
      [Ev.measure]
    else if diff (f calib) tfreq = 0 then
      [Ev.measure]
    else
      Ev.measure :: Ev.enter ::
        Ev.eepromWrite 0 (nextCalib (f calib) tfreq calib) :: Ev.exit ::
        calibLoopEv f tfreq n (nextCalib (f calib) tfreq calib)
          (diff (f calib) tfreq)

/-- Embeds `ICSP_enterProgMode`, which transmits the enable command
`AC 53 00 00` and returns `echo == 0x53`, where `echo` is the byte the
target echoes while the third command byte is shifted out. -/
def ICSP_enterProgMode (echo : Nat) : Bool :=
  echo == 0x53

/-- Embeds the composition and scaling of `FRQ_measure`:
`uint16_t freq = (uint16_t)(FRQ_highByte << 8) | TCNT0; freq >>= 1;`.
`hi` is the software high-byte extension `FRQ_highByte`, `lo` the hardware
counter register `TCNT0` (both 8-bit). -/
def FRQ_measure (hi lo : Nat) : Nat :=
  ((((hi <<< 8) % 65536) ||| lo) % 65536) >>> 1

/-- Embeds the C struct `TGT_TYPE` (one registry descriptor).  `PROG` is
the opaque instrumentation image referenced by the descriptor. -/
structure TGT_TYPE where
  SIG : Nat
  LFUSE : Nat
  HFUSE : Nat
  EFUSE : Nat
  PSIZE : Nat
  PROG_LENGTH : Nat
  PROG : List Nat
  FREQ : Nat
  NAME : String
deriving DecidableEq

/-- Embeds `PROG_T13` (opaque instrumentation image for the ATtiny13). -/
def PROG_T13 : List Nat := [
  0x09, 0xC0, 0x0E, 0xC0, 0x0D, 0xC0, 0x0C, 0xC0, 0x0B, 0xC0, 0x0A, 0xC0, 0x09, 0xC0, 0x08, 0xC0,
  0x07, 0xC0, 0x06, 0xC0, 0x11, 0x24, 0x1F, 0xBE, 0xCF, 0xE9, 0xCD, 0xBF, 0x02, 0xD0, 0x12, 0xC0,
  0xEF, 0xCF, 0x80, 0xE0, 0x90, 0xE0, 0x07, 0xD0, 0x81, 0xBF, 0x81, 0xE0, 0x87, 0xBB, 0x92, 0xE4,
  0x9F, 0xBD, 0x83, 0xBF, 0xFF, 0xCF, 0xE1, 0x99, 0xFE, 0xCF, 0x8E, 0xBB, 0xE0, 0x9A, 0x99, 0x27,
  0x8D, 0xB3, 0x08, 0x95, 0xF8, 0x94, 0xFF, 0xCF]

/-- Embeds `PROG_Tx5` (opaque instrumentation image for ATtiny25/45/85). -/
def PROG_Tx5 : List Nat := [
  0x0E, 0xC0, 0x13, 0xC0, 0x12, 0xC0, 0x11, 0xC0, 0x10, 0xC0, 0x0F, 0xC0, 0x0E, 0xC0, 0x0D, 0xC0,
  0x0C, 0xC0, 0x0B, 0xC0, 0x0A, 0xC0, 0x09, 0xC0, 0x08, 0xC0, 0x07, 0xC0, 0x06, 0xC0, 0x11, 0x24,
  0x1F, 0xBE, 0xCF, 0xED, 0xCD, 0xBF, 0x02, 0xD0, 0x13, 0xC0, 0xEA, 0xCF, 0x80, 0xE0, 0x90, 0xE0,
  0x07, 0xD0, 0x81, 0xBF, 0x81, 0xE0, 0x87, 0xBB, 0x92, 0xE4, 0x9A, 0xBD, 0x83, 0xBF, 0xFF, 0xCF,
  0xE1, 0x99, 0xFE, 0xCF, 0x1F, 0xBA, 0x8E, 0xBB, 0xE0, 0x9A, 0x99, 0x27, 0x8D, 0xB3, 0x08, 0x95,
  0xF8, 0x94, 0xFF, 0xCF]

/-- Embeds `PROG_T24` (opaque instrumentation image for the ATtiny24). -/
def PROG_T24 : List Nat := [
  0x10, 0xC0, 0x15, 0xC0, 0x14, 0xC0, 0x13, 0xC0, 0x12, 0xC0, 0x11, 0xC0, 0x10, 0xC0, 0x0F, 0xC0,
  0x0E, 0xC0, 0x0D, 0xC0, 0x0C, 0xC0, 0x0B, 0xC0, 0x0A, 0xC0, 0x09, 0xC0, 0x08, 0xC0, 0x07, 0xC0,
  0x06, 0xC0, 0x11, 0x24, 0x1F, 0xBE, 0xCF, 0xED, 0xCD, 0xBF, 0x02, 0xD0, 0x13, 0xC0, 0xE8, 0xCF,
  0x80, 0xE0, 0x90, 0xE0, 0x07, 0xD0, 0x81, 0xBF, 0x80, 0xE4, 0x8A, 0xBB, 0x8F, 0xBD, 0x89, 0xE0,
  0x8E, 0xBD, 0xFF, 0xCF, 0xE1, 0x99, 0xFE, 0xCF, 0x1F, 0xBA, 0x8E, 0xBB, 0xE0, 0x9A, 0x99, 0x27,
  0x8D, 0xB3, 0x08, 0x95, 0xF8, 0x94, 0xFF, 0xCF]

/-- Embeds `PROG_T84` (opaque instrumentation image for ATtiny44/84). -/
def PROG_T84 : List Nat := [
  0x10, 0xC0, 0x17, 0xC0, 0x16, 0xC0, 0x15, 0xC0, 0x14, 0xC0, 0x13, 0xC0, 0x12, 0xC0, 0x11, 0xC0,
  0x10, 0xC0, 0x0F, 0xC0, 0x0E, 0xC0, 0x0D, 0xC0, 0x0C, 0xC0, 0x0B, 0xC0, 0x0A, 0xC0, 0x09, 0xC0,
  0x08, 0xC0, 0x11, 0x24, 0x1F, 0xBE, 0xCF, 0xE5, 0xD2, 0xE0, 0xDE, 0xBF, 0xCD, 0xBF, 0x02, 0xD0,
  0x13, 0xC0, 0xE6, 0xCF, 0x80, 0xE0, 0x90, 0xE0, 0x07, 0xD0, 0x81, 0xBF, 0x80, 0xE4, 0x8A, 0xBB,
  0x8F, 0xBD, 0x89, 0xE0, 0x8E, 0xBD, 0xFF, 0xCF, 0xE1, 0x99, 0xFE, 0xCF, 0x9F, 0xBB, 0x8E, 0xBB,
  0xE0, 0x9A, 0x99, 0x27, 0x8D, 0xB3, 0x08, 0x95, 0xF8, 0x94, 0xFF, 0xCF]

/-- Embeds `PROG_M8` (opaque instrumentation image for the ATmega8). -/
def PROG_M8 : List Nat := [
  0x12, 0xC0, 0x19, 0xC0, 0x18, 0xC0, 0x17, 0xC0, 0x16, 0xC0, 0x15, 0xC0, 0x14, 0xC0, 0x13, 0xC0,
  0x12, 0xC0, 0x11, 0xC0, 0x10, 0xC0, 0x0F, 0xC0, 0x0E, 0xC0, 0x0D, 0xC0, 0x0C, 0xC0, 0x0B, 0xC0,
  0x0A, 0xC0, 0x09, 0xC0, 0x08, 0xC0, 0x11, 0x24, 0x1F, 0xBE, 0xCF, 0xE5, 0xD4, 0xE0, 0xDE, 0xBF,
  0xCD, 0xBF, 0x02, 0xD0, 0x12, 0xC0, 0xE4, 0xCF, 0x80, 0xE0, 0x90, 0xE0, 0x06, 0xD0, 0x81, 0xBF,
  0x88, 0xE0, 0x87, 0xBB, 0x8A, 0xE1, 0x85, 0xBD, 0xFF, 0xCF, 0xE1, 0x99, 0xFE, 0xCF, 0x9F, 0xBB,
  0x8E, 0xBB, 0xE0, 0x9A, 0x99, 0x27, 0x8D, 0xB3, 0x08, 0x95, 0xF8, 0x94, 0xFF, 0xCF]

/-- Embeds the compiled-in registry `TGTs` (eight descriptors, in table
order). -/
def TGTs : List TGT_TYPE := [
  ⟨0x9007, 0x6A, 0xFF, 0xFF, 16, 72, PROG_T13, 9600, "ATTINY13  "⟩,
  ⟨0x9108, 0x62, 0xDF, 0xFF, 16, 84, PROG_Tx5, 8000, "ATTINY25  "⟩,
  ⟨0x9206, 0x62, 0xDF, 0xFF, 32, 84, PROG_Tx5, 8000, "ATTINY45  "⟩,
  ⟨0x930B, 0x62, 0xDF, 0xFF, 32, 84, PROG_Tx5, 8000, "ATTINY85  "⟩,
  ⟨0x910B, 0x62, 0xDF, 0xFF, 16, 88, PROG_T24, 8000, "ATTINY24  "⟩,
  ⟨0x9207, 0x62, 0xDF, 0xFF, 32, 92, PROG_T84, 8000, "ATTINY44  "⟩,
  ⟨0x930C, 0x62, 0xDF, 0xFF, 32, 92, PROG_T84, 8000, "ATTINY84  "⟩,
  ⟨0x9307, 0x64, 0xDF, 0xFF, 32, 94, PROG_M8, 8000, "ATMEGA8   "⟩]

/-- Embeds the identification scan of `main`:
`for(target=0; target<TGT_LENGTH; target++) if(signature == TGTs[target].SIG) break;`
— a linear scan in table order, first match wins, `none` when the loop
falls through with `target == TGT_LENGTH`. -/
def TGT_lookup (sig : Nat) : Option TGT_TYPE :=
  TGTs.find? (fun t => t.SIG == sig)

/-- The flash-programming instructions `ICSP_writeFlash` issues: load of a
word's low/high byte at a word address (instruction bytes `0x40`/`0x48`),
and a page commit (instruction byte `0x4C`) at a word address. -/
inductive FlashInstr where
  | loadLow : Nat → Nat → FlashInstr
  | loadHigh : Nat → Nat → FlashInstr
  | commit : Nat → FlashInstr
deriving DecidableEq

/-- Embeds the `do { ... } while(--length);` loop of `ICSP_writeFlash`:
each iteration loads one word (low byte then high byte, consecutive image
bytes) at `addr`, increments `addr`, and commits the page just filled when
the incremented address is page-aligned (`(++addr & (pagesize-1)) == 0`),
at page base `addr - pagesize`.  For `length >= 1` the do-while executes
its body exactly `length` times, which is what the recursion does. -/
def writeFlashLoop (pagesize : Nat) (prog : List Nat) : Nat → Nat → List FlashInstr
  | 0, _ => []
  | Nat.succ n, addr =>
    FlashInstr.loadLow addr (prog.getD (2 * addr) 0) ::
    FlashInstr.loadHigh addr (prog.getD (2 * addr + 1) 0) ::
    (if (addr + 1) &&& (pagesize - 1) = 0 then
      FlashInstr.commit (addr + 1 - pagesize) :: writeFlashLoop pagesize prog n (addr + 1)
    else
      writeFlashLoop pagesize prog n (addr + 1))

/-- Embeds `ICSP_writeFlash`: the word count is `(TGT.PROG_LENGTH + 1) >> 1`,
the loop programs words at sequential addresses from zero, and after the
loop a final commit is issued at the current address when the final page is
only partially filled (`addr & (pagesize - 1)` nonzero). -/
def ICSP_writeFlash (pagesize proglen : Nat) (prog : List Nat) : List FlashInstr :=
  writeFlashLoop pagesize prog ((proglen + 1) >>> 1) 0 ++
    (if ((proglen + 1) >>> 1) &&& (pagesize - 1) = 0 then []
     else [FlashInstr.commit ((proglen + 1) >>> 1)])

/-- Word addresses of the load-low instructions of a flash trace, in issue
order (the word sequence the image is programmed as). -/
def loadAddrs : List FlashInstr → List Nat
  | [] => []
  | FlashInstr.loadLow a _ :: rest => a :: loadAddrs rest
  | _ :: rest => loadAddrs rest

/-- Word addresses of the page-commit instructions of a flash trace, in
issue order. -/
def commitAddrs : List FlashInstr → List Nat
  | [] => []
  | FlashInstr.commit a :: rest => a :: commitAddrs rest
  | _ :: rest => commitAddrs rest

/-- Embeds one iteration of the outer `while(1)` of `main` (one session,
from the enable handshake to the final EEPROM commit), as the ICSP event
trace it issues.  `echo` is the byte the target echoes during the enable
handshake (its value is discarded by `main`, exactly as in the source,
where `ICSP_enterProgMode();` is called without testing the result),
`sig` the signature `ICSP_readSignature` returns, `f` the measured
frequency as a function of the trial byte currently in target EEPROM, and
`c0` the factory calibration byte `ICSP_readCalib` returns. -/
def mainSession (echo sig : Nat) (f : Nat → Nat) (c0 : Nat) : List Ev :=
  Ev.enter :: Ev.readSig ::
  match TGT_lookup sig with
  | none => [Ev.exit]
  | some tgt =>
    Ev.readCalib :: Ev.erase :: Ev.writeFuses :: Ev.flashWrite ::
    Ev.eepromWrite 0 c0 :: Ev.exit ::
    (calibLoopEv f tgt.FREQ 65536 c0 65535 ++
      [Ev.enter,
       Ev.eepromWrite 0 ((calibRun f tgt.FREQ c0).elim c0 (fun r => r.lastcalib)),
       Ev.exit])

/-! Unfolding equations for the fuel recursions, and the loop invariant. -/

theorem calibLoop_zero (f : Nat → Nat) (tfreq calib lastcalib difference : Nat)
    (visited bests : List Nat) :
    calibLoop f tfreq 0 calib lastcalib difference visited bests = none := rfl

theorem calibLoop_succ (f : Nat → Nat) (tfreq n calib lastcalib difference : Nat)
    (visited bests : List Nat) :
    calibLoop f tfreq (Nat.succ n) calib lastcalib difference visited bests =
      if difference ≤ diff (f calib) tfreq then
        some ⟨lastcalib, visited ++ [calib], bests⟩
      else if diff (f calib) tfreq = 0 then
        some ⟨calib, visited ++ [calib], bests ++ [calib]⟩
      else
        calibLoop f tfreq n (nextCalib (f calib) tfreq calib) calib
          (diff (f calib) tfreq) (visited ++ [calib]) (bests ++ [calib]) := rfl

theorem calibLoopEv_succ (f : Nat → Nat) (tfreq n calib difference : Nat) :
    calibLoopEv f tfreq (Nat.succ n) calib difference =
      if difference ≤ diff (f calib) tfreq then
        [Ev.measure]
      else if diff (f calib) tfreq = 0 then
        [Ev.measure]
      else
        Ev.measure :: Ev.enter ::
          Ev.eepromWrite 0 (nextCalib (f calib) tfreq calib) :: Ev.exit ::
          calibLoopEv f tfreq n (nextCalib (f calib) tfreq calib)
            (diff (f calib) tfreq) := rfl

/-- Appending a strictly better trial to the recorded-bests list keeps the
deviations strictly decreasing along it. -/
theorem bests_chain_extend (f : Nat → Nat) (tfreq : Nat) (bests : List Nat)
    (lastcalib calib difference : Nat)
    (hchain : List.Chain' (fun a b => diff (f b) tfreq < diff (f a) tfreq) bests)
    (hlast : bests = [] ∨
      (bests.getLast? = some lastcalib ∧ diff (f lastcalib) tfreq = difference))
    (hlt : diff (f calib) tfreq < difference) :
    List.Chain' (fun a b => diff (f b) tfreq < diff (f a) tfreq) (bests ++ [calib]) := by
  rw [List.chain'_append]
  refine ⟨hchain, List.chain'_singleton _, ?_⟩
  intro x hx y hy
  rcases hlast with hnil | ⟨hl, hdev⟩
  · subst hnil; simp at hx
  · rw [hl, Option.mem_def, Option.some.injEq] at hx
    rw [List.head?_cons, Option.mem_def, Option.some.injEq] at hy
    subst hx; subst hy
    rw [hdev]
    exact hlt

/-- Invariant of the measuring/adjusting loop.  Whenever the fuel exceeds
the current best deviation, the loop (a) breaks before the fuel runs out,
(b) returns a `lastcalib` that was visited and whose deviation is minimal
among all visited trials, (c) keeps the deviations of the recorded bests
strictly decreasing, and (d) returns the last recorded best (or the seed,
when nothing was ever recorded). -/
theorem calibLoop_sound (f : Nat → Nat) (tfreq : Nat) :
    ∀ (fuel calib lastcalib difference : Nat) (visited bests : List Nat),
      difference < fuel →
      (∀ t ∈ visited, difference ≤ diff (f t) tfreq) →
      ((lastcalib = calib ∧ visited = [] ∧ bests = ([] : List Nat)) ∨
        (diff (f lastcalib) tfreq = difference ∧ lastcalib ∈ visited ∧
          bests.getLast? = some lastcalib)) →
      List.Chain' (fun a b => diff (f b) tfreq < diff (f a) tfreq) bests →
      ∃ r, calibLoop f tfreq fuel calib lastcalib difference visited bests = some r ∧
        r.lastcalib ∈ r.visited ∧
        (∀ t ∈ r.visited, diff (f r.lastcalib) tfreq ≤ diff (f t) tfreq) ∧
        List.Chain' (fun a b => diff (f b) tfreq < diff (f a) tfreq) r.bests ∧
        (r.bests = [] ∨ r.bests.getLast? = some r.lastcalib) := by
  intro fuel
  induction fuel with
  | zero =>
    intro calib lastcalib difference visited bests h1 _ _ _
    exact absurd h1 (Nat.not_lt_zero _)
  | succ n ih =>
    intro calib lastcalib difference visited bests h1 h2 h3 hchain
    rw [calibLoop_succ]
    by_cases hb : difference ≤ diff (f calib) tfreq
    · rw [if_pos hb]
      refine ⟨⟨lastcalib, visited ++ [calib], bests⟩, rfl, ?_, ?_, hchain, ?_⟩
      · rcases h3 with ⟨hlc, _, _⟩ | ⟨_, hmem, _⟩
        · subst hlc
          exact List.mem_append_right _ (List.mem_singleton_self _)
        · exact List.mem_append_left _ hmem
      · intro t ht
        rcases List.mem_append.mp ht with htv | htc
        · rcases h3 with ⟨hlc, hv, _⟩ | ⟨hdev, _, _⟩
          · subst hv; simp at htv
          · rw [hdev]; exact h2 t htv
        · rw [List.mem_singleton] at htc
          subst htc
          rcases h3 with ⟨hlc, _, _⟩ | ⟨hdev, _, _⟩
          · subst hlc; exact Nat.le_refl _
          · rw [hdev]; exact hb
      · rcases h3 with ⟨_, _, hbe⟩ | ⟨_, _, hlast⟩
        · exact Or.inl hbe
        · exact Or.inr hlast
    · rw [if_neg hb]
      push_neg at hb
      by_cases hz : diff (f calib) tfreq = 0
      · rw [if_pos hz]
        refine ⟨⟨calib, visited ++ [calib], bests ++ [calib]⟩, rfl,
          List.mem_append_right _ (List.mem_singleton_self _), ?_, ?_,
          Or.inr (List.getLast?_concat _)⟩
        · intro t ht
          rw [hz]
          exact Nat.zero_le _
        · refine bests_chain_extend f tfreq bests lastcalib calib difference hchain ?_ hb
          rcases h3 with ⟨_, _, hbe⟩ | ⟨hdev, _, hlast⟩
          · exact Or.inl hbe
          · exact Or.inr ⟨hlast, hdev⟩
      · rw [if_neg hz]
        apply ih
        · omega
        · intro t ht
          rcases List.mem_append.mp ht with htv | htc
          · exact Nat.le_of_lt (Nat.lt_of_lt_of_le hb (h2 t htv))
          · rw [List.mem_singleton] at htc
            subst htc
            exact Nat.le_refl _
        · exact Or.inr ⟨rfl, List.mem_append_right _ (List.mem_singleton_self _),
            List.getLast?_concat _⟩
        · refine bests_chain_extend f tfreq bests lastcalib calib difference hchain ?_ hb
          rcases h3 with ⟨_, _, hbe⟩ | ⟨hdev, _, hlast⟩
          · exact Or.inl hbe
          · exact Or.inr ⟨hlast, hdev⟩

/-- Each iteration of the measuring/adjusting loop performs exactly one
measurement, so the event trace holds at most `fuel` measurements. -/
theorem calibLoopEv_count_le (f : Nat → Nat) (tfreq : Nat) :
    ∀ fuel calib difference,
      (calibLoopEv f tfreq fuel calib difference).count Ev.measure ≤ fuel := by
  intro fuel
  induction fuel with
  | zero => intro c d; simp [calibLoopEv]
  | succ n ih =>
    intro c d
    rw [calibLoopEv_succ]
    by_cases hb : d ≤ diff (f c) tfreq
    · rw [if_pos hb]; simp
    · rw [if_neg hb]
      by_cases hz : diff (f c) tfreq = 0
      · rw [if_pos hz]; simp
      · rw [if_neg hz]
        have := ih (nextCalib (f c) tfreq c) (diff (f c) tfreq)
        simp only [List.count_cons, beq_iff_eq, reduceCtorEq, if_false,
          if_true, reduceIte]
        omega

/-- C10: the measuring/adjusting loop terminates for every sequence of
measured frequencies, not only for monotonic targets: each iteration either
breaks out of the loop or strictly decreases the recorded best deviation (a
nonnegative quantity below 65536), so fuel 65536 always suffices — every
calibration session performs at most 65536 measurements before
committing. -/
theorem calibLoop_always_terminates (f : Nat → Nat) (tfreq c0 : Nat) :
    (calibRun f tfreq c0).isSome = true ∧
    (calibLoopEv f tfreq 65536 c0 65535).count Ev.measure ≤ 65536 := by
  constructor
  · obtain ⟨r, hr, -⟩ :=
      calibLoop_sound f tfreq 65536 c0 c0 65535 [] [] (by omega)
        (by intro t ht; simp at ht) (Or.inl ⟨rfl, rfl, rfl⟩) List.chain'_nil
    rw [calibRun, hr]
    rfl
  · exact calibLoopEv_count_le f tfreq 65536 c0 65535

/-- C2: for every calibration session over a target whose emitted frequency
is a monotonically decreasing function of the trial byte, the
measuring/adjusting loop terminates, and the value the final commit writes
to EEPROM address zero (`lastcalib`) minimizes the deviation
`|measured - expected|` among all trials visited; the loop never records as
best a trial whose deviation is at least the previously recorded best
deviation (the recorded-best deviations strictly decrease), and the final
commit writes the last recorded best even when the loop's last visited
trial was a rejected overshoot. -/
theorem calibration_commits_best_trial (f : Nat → Nat) (tfreq c0 sig echo : Nat)
    (tgt : TGT_TYPE)
    (hmono : ∀ a, a ≤ 255 → ∀ b, b ≤ 255 → a ≤ b → f b ≤ f a)
    (hsig : TGT_lookup sig = some tgt) (hfreq : tgt.FREQ = tfreq) :
    ∃ r : CalibRun, calibRun f tfreq c0 = some r ∧
      r.lastcalib ∈ r.visited ∧
      (∀ t ∈ r.visited, diff (f r.lastcalib) tfreq ≤ diff (f t) tfreq) ∧
      List.Chain' (fun a b => diff (f b) tfreq < diff (f a) tfreq) r.bests ∧
      (r.bests = [] ∨ r.bests.getLast? = some r.lastcalib) ∧
      Ev.eepromWrite 0 r.lastcalib ∈ mainSession echo sig f c0 := by
  obtain ⟨r, hr, hmem, hmin, hch, hlast⟩ :=
    calibLoop_sound f tfreq 65536 c0 c0 65535 [] [] (by omega)
      (by intro t ht; simp at ht) (Or.inl ⟨rfl, rfl, rfl⟩) List.chain'_nil
  have hrun : calibRun f tfreq c0 = some r := by rw [calibRun, hr]
  refine ⟨r, hrun, hmem, hmin, hch, hlast, ?_⟩
  unfold mainSession
  rw [hsig]
  dsimp only
  rw [hfreq, hrun]
  simp [Option.elim]

/-- Witness for `calibration_commits_best_trial`: the ATtiny84 registry
entry with the synthetic decreasing frequency map `c ↦ 8300 - c`. -/
theorem calibration_commits_best_trial_witness :
    ∃ r : CalibRun, calibRun (fun c => 8300 - c) 8000 100 = some r ∧
      r.lastcalib ∈ r.visited ∧
      (∀ t ∈ r.visited, diff ((fun c => 8300 - c) r.lastcalib) 8000 ≤
        diff ((fun c => 8300 - c) t) 8000) ∧
      List.Chain' (fun a b => diff ((fun c => 8300 - c) b) 8000 <
        diff ((fun c => 8300 - c) a) 8000) r.bests ∧
      (r.bests = [] ∨ r.bests.getLast? = some r.lastcalib) ∧
      Ev.eepromWrite 0 r.lastcalib ∈
        mainSession 0x53 0x930C (fun c => 8300 - c) 100 :=
  calibration_commits_best_trial (fun c => 8300 - c) 8000 100 0x930C 0x53
    ⟨0x930C, 0x62, 0xDF, 0xFF, 32, 92, PROG_T84, 8000, "ATTINY84  "⟩
    (by intro a _ b _ hab; simp only []; omega)
    (by decide) rfl

/-- C8: if the very first trial of a calibration session has deviation
exactly zero, the loop performs exactly one measurement, writes no further
trial value during the loop, and the committing step persists that first
trial's value to EEPROM address zero — the whole session trace is the
programming prefix, one `measure`, and the final commit of `c0`. -/
theorem first_trial_exact_commits_immediately (sig echo c0 : Nat) (f : Nat → Nat)
    (tgt : TGT_TYPE) (hsig : TGT_lookup sig = some tgt)
    (hd : diff (f c0) tgt.FREQ = 0) :
    calibRun f tgt.FREQ c0 = some ⟨c0, [c0], [c0]⟩ ∧
    mainSession echo sig f c0 =
      [Ev.enter, Ev.readSig, Ev.readCalib, Ev.erase, Ev.writeFuses,
       Ev.flashWrite, Ev.eepromWrite 0 c0, Ev.exit,
       Ev.measure,
       Ev.enter, Ev.eepromWrite 0 c0, Ev.exit] := by
  have h1 : calibRun f tgt.FREQ c0 = some ⟨c0, [c0], [c0]⟩ := by
    rw [calibRun, show (65536 : Nat) = Nat.succ 65535 from rfl, calibLoop_succ, hd]
    simp
  have h2 : calibLoopEv f tgt.FREQ 65536 c0 65535 = [Ev.measure] := by
    rw [show (65536 : Nat) = Nat.succ 65535 from rfl, calibLoopEv_succ, hd]
    simp
  refine ⟨h1, ?_⟩
  unfold mainSession
  rw [hsig]
  dsimp only
  rw [h2, h1]
  simp [Option.elim]

/-- Witness for `first_trial_exact_commits_immediately`: the ATtiny84
entry with a target that emits exactly 8000 kHz at the factory byte. -/
theorem first_trial_exact_commits_immediately_witness :
    calibRun (fun _ => 8000) 8000 100 = some ⟨100, [100], [100]⟩ ∧
    mainSession 0x53 0x930C (fun _ => 8000) 100 =
      [Ev.enter, Ev.readSig, Ev.readCalib, Ev.erase, Ev.writeFuses,
       Ev.flashWrite, Ev.eepromWrite 0 100, Ev.exit,
       Ev.measure,
       Ev.enter, Ev.eepromWrite 0 100, Ev.exit] :=
  first_trial_exact_commits_immediately 0x930C 0x53 100 (fun _ => 8000)
    ⟨0x930C, 0x62, 0xDF, 0xFF, 32, 92, PROG_T84, 8000, "ATTINY84  "⟩
    (by decide) (by decide)

/-- C9: the very first measured deviation of a calibration session is
always accepted: for every value `FRQ_measure` can return (8-bit extension
and 8-bit counter register) and every registry target frequency, the first
iteration's deviation is strictly below the 65535 seed, so the loop's
first step is never the give-up branch — it records the first trial as
best (and either stops on an exact match or continues searching). -/
theorem first_deviation_always_accepted (hi lo : Nat) (hhi : hi < 256)
    (hlo : lo < 256) (tgt : TGT_TYPE) (htgt : tgt ∈ TGTs) (f : Nat → Nat)
    (c0 n : Nat) (hf : f c0 = FRQ_measure hi lo) :
    diff (f c0) tgt.FREQ < 65535 ∧
    calibLoop f tgt.FREQ (Nat.succ n) c0 c0 65535 [] [] =
      (if diff (f c0) tgt.FREQ = 0 then some ⟨c0, [c0], [c0]⟩
       else calibLoop f tgt.FREQ n (nextCalib (f c0) tgt.FREQ c0) c0
         (diff (f c0) tgt.FREQ) [c0] [c0]) := by
  have hm : FRQ_measure hi lo ≤ 32767 := by
    rw [FRQ_measure, Nat.shiftRight_eq_div_pow, pow_one]
    have hlt : ((((hi <<< 8) % 65536) ||| lo) % 65536) < 65536 :=
      Nat.mod_lt _ (by norm_num)
    omega
  have hfr : tgt.FREQ ≤ 9600 := by
    have hall : ∀ t ∈ TGTs, t.FREQ ≤ 9600 := by decide
    exact hall tgt htgt
  have hlt : diff (f c0) tgt.FREQ < 65535 := by
    rw [hf, diff]
    split <;> omega
  refine ⟨hlt, ?_⟩
  rw [calibLoop_succ, if_neg (by omega)]
  simp

/-- Witness for `first_deviation_always_accepted`: high byte 62 and low
byte 128 (a raw count of 16000, measuring 8000 kHz) against the ATtiny84
registry entry. -/
theorem first_deviation_always_accepted_witness :
    diff 8000 8000 < 65535 ∧
    calibLoop (fun _ => 8000) 8000 (Nat.succ 5) 10 10 65535 [] [] =
      (if diff 8000 8000 = 0 then some ⟨10, [10], [10]⟩
       else calibLoop (fun _ => 8000) 8000 5 (nextCalib 8000 8000 10) 10
         (diff 8000 8000) [10] [10]) :=
  first_deviation_always_accepted 62 128 (by decide) (by decide)
    ⟨0x930C, 0x62, 0xDF, 0xFF, 32, 92, PROG_T84, 8000, "ATTINY84  "⟩
    (by decide) (fun _ => 8000) 10 5 (by decide)

/-- C5: `FRQ_measure` composes its result from the software high-byte
extension and the hardware counter register and scales by one half: for
every composed raw count `256 * hi + lo` the reported frequency is its
integer half, and a raw accumulated count of 16000 reports exactly
8000 kHz. -/
theorem frq_measure_halves_raw_count (hi lo : Nat) (hhi : hi < 256)
    (hlo : lo < 256) :
    FRQ_measure hi lo = (256 * hi + lo) / 2 ∧
    (256 * hi + lo = 16000 → FRQ_measure hi lo = 8000) := by
  have hlo' : lo < 2 ^ 8 := Nat.lt_of_lt_of_le hlo (by norm_num)
  have hcomp : (hi <<< 8) ||| lo = 256 * hi + lo := by
    rw [Nat.shiftLeft_eq, Nat.mul_comm hi (2 ^ 8), ← Nat.mul_add_lt_is_or hlo' hi]
  have hb : hi <<< 8 < 65536 := by
    rw [Nat.shiftLeft_eq]
    have h8 : (2 : Nat) ^ 8 = 256 := by norm_num
    rw [h8]
    omega
  have hor : ((hi <<< 8) ||| lo) < 65536 := by rw [hcomp]; omega
  have hmain : FRQ_measure hi lo = (256 * hi + lo) / 2 := by
    rw [FRQ_measure, Nat.mod_eq_of_lt hb, Nat.mod_eq_of_lt hor, hcomp,
      Nat.shiftRight_eq_div_pow, pow_one]
  exact ⟨hmain, fun h => by rw [hmain, h]⟩

/-- Witness for `frq_measure_halves_raw_count`: high byte 62, low byte 128
compose to the raw count 16000, reported as 8000 kHz. -/
theorem frq_measure_halves_raw_count_witness :
    FRQ_measure 62 128 = (256 * 62 + 128) / 2 ∧
    (256 * 62 + 128 = 16000 → FRQ_measure 62 128 = 8000) :=
  frq_measure_halves_raw_count 62 128 (by decide) (by decide)

/-- C6: registry lookup is a linear scan in table order with first match
winning: signatures are unique across the eight entries, every signature
present in the table resolves to the descriptor carrying it, and every
absent signature resolves to no match. -/
theorem registry_lookup_first_match :
    (∀ t ∈ TGTs, ∀ u ∈ TGTs, t.SIG = u.SIG → t = u) ∧
    (∀ sig : Nat, (∃ t ∈ TGTs, t.SIG = sig) →
      ∃ t, TGT_lookup sig = some t ∧ t ∈ TGTs ∧ t.SIG = sig) ∧
    (∀ sig : Nat, (∀ t ∈ TGTs, t.SIG ≠ sig) → TGT_lookup sig = none) := by
  refine ⟨by decide, ?_, ?_⟩
  · rintro sig ⟨t, ht, hsig⟩
    cases hfind : TGT_lookup sig with
    | none =>
      rw [TGT_lookup, List.find?_eq_none] at hfind
      have := hfind t ht
      simp [hsig] at this
    | some u =>
      have hfind' : TGTs.find? (fun t => t.SIG == sig) = some u := hfind
      have hmem := List.mem_of_find?_eq_some hfind'
      have hp := List.find?_some hfind'
      simp only [beq_iff_eq] at hp
      exact ⟨u, rfl, hmem, hp⟩
  · intro sig hall
    rw [TGT_lookup, List.find?_eq_none]
    intro t ht
    simp only [beq_iff_eq]
    exact hall t ht

/-- Witness for `registry_lookup_first_match`: the signature 0 is absent
from the registry, so lookup reports no match. -/
theorem registry_lookup_first_match_witness : TGT_lookup 0 = none :=
  registry_lookup_first_match.2.2 0 (by decide)

/-- C4: for every registry descriptor, `ICSP_writeFlash` programs the
image as words at sequential addresses from zero, issues one page commit
per page touched (full pages plus, when the word count is not an exact
multiple of the page size, exactly one more for the final partial page),
and every word of the image lies in a page that receives a commit; the
same coverage holds for the spec's two example shapes, a page-aligned
image of exactly one 32-word page and a non-aligned image of one page
plus three words. -/
theorem writeFlash_commits_every_page :
    (∀ tgt ∈ TGTs,
      loadAddrs (ICSP_writeFlash tgt.PSIZE tgt.PROG_LENGTH tgt.PROG) =
        List.range ((tgt.PROG_LENGTH + 1) >>> 1) ∧
      (commitAddrs (ICSP_writeFlash tgt.PSIZE tgt.PROG_LENGTH tgt.PROG)).length =
        (((tgt.PROG_LENGTH + 1) >>> 1) + tgt.PSIZE - 1) / tgt.PSIZE ∧
      (¬ ((tgt.PROG_LENGTH + 1) >>> 1) % tgt.PSIZE = 0 →
        ((tgt.PROG_LENGTH + 1) >>> 1) ∈
          commitAddrs (ICSP_writeFlash tgt.PSIZE tgt.PROG_LENGTH tgt.PROG)) ∧
      ∀ w < (tgt.PROG_LENGTH + 1) >>> 1,
        ∃ c ∈ commitAddrs (ICSP_writeFlash tgt.PSIZE tgt.PROG_LENGTH tgt.PROG),
          c / tgt.PSIZE = w / tgt.PSIZE) ∧
    (∀ w < 32, ∃ c ∈ commitAddrs (ICSP_writeFlash 32 64 PROG_T84),
      c / 32 = w / 32) ∧
    (∀ w < 35, ∃ c ∈ commitAddrs (ICSP_writeFlash 32 70 PROG_T84),
      c / 32 = w / 32) := by
  decide

/-- Witness for `writeFlash_commits_every_page`: the ATtiny84 descriptor
(92 image bytes, 46 words, page size 32) programs words 0..45. -/
theorem writeFlash_commits_every_page_witness :
    loadAddrs (ICSP_writeFlash 32 92 PROG_T84) = List.range 46 :=
  (writeFlash_commits_every_page.1
    ⟨0x930C, 0x62, 0xDF, 0xFF, 32, 92, PROG_T84, 8000, "ATTINY84  "⟩
    (by decide)).1

/-- C7: when the read signature matches no registry entry, the session
trace is exactly handshake, signature read, session close — in particular
the session is closed and no chip-erase, fuse-write, flash-write, or
EEPROM-write instruction is ever issued, leaving target memory
untouched. -/
theorem unsupported_device_leaves_target_untouched (echo sig : Nat)
    (f : Nat → Nat) (c0 : Nat) (h : TGT_lookup sig = none) :
    mainSession echo sig f c0 = [Ev.enter, Ev.readSig, Ev.exit] ∧
    Ev.exit ∈ mainSession echo sig f c0 ∧
    Ev.erase ∉ mainSession echo sig f c0 ∧
    Ev.writeFuses ∉ mainSession echo sig f c0 ∧
    Ev.flashWrite ∉ mainSession echo sig f c0 ∧
    ∀ a d, Ev.eepromWrite a d ∉ mainSession echo sig f c0 := by
  have htr : mainSession echo sig f c0 = [Ev.enter, Ev.readSig, Ev.exit] := by
    unfold mainSession
    rw [h]
  refine ⟨htr, ?_, ?_, ?_, ?_, ?_⟩ <;> rw [htr] <;> simp

/-- Witness for `unsupported_device_leaves_target_untouched`: signature 0
is absent, and the whole session trace is handshake, signature read,
close. -/
theorem unsupported_device_leaves_target_untouched_witness :
    mainSession 0 0 (fun _ => 0) 0 = [Ev.enter, Ev.readSig, Ev.exit] :=
  (unsupported_device_leaves_target_untouched 0 0 (fun _ => 0) 0 (by decide)).1

/-- C1 fails on the code: with enable-handshake echo byte `0x00` the
handshake fails (`ICSP_enterProgMode` returns failure), yet `main`
discards that return value, so the session still issues the
read-signature instruction — and when the garbage signature happens to
match a registry entry (here 0x9007), even the chip-erase and the
programming instructions follow on the unentered link. -/
theorem failed_handshake_still_sends_instructions :
    ICSP_enterProgMode 0x00 = false ∧
    Ev.readSig ∈ mainSession 0x00 0x9007 (fun _ => 0) 0 ∧
    Ev.erase ∈ mainSession 0x00 0x9007 (fun _ => 0) 0 := by
  decide

/-- C3 fails on the code: the trial byte is a `uint8_t` adjusted with bare
increment/decrement, so with a measured frequency of 9000 kHz above the
8000 kHz target, decrementing a trial of 0 wraps to 255, and with a
measured 7000 kHz below target, incrementing a trial of 255 wraps to 0 —
the adjustment is not clamped at the representable bounds. -/
theorem trial_byte_wraps_at_bounds :
    nextCalib 9000 8000 0 = 255 ∧ nextCalib 7000 8000 255 = 0 := by
  decide
